import Mathlib

/-!
Shallow embedding of the data-preparation and filtering pipeline of the UPI
transaction dashboard (`src/app.py`), together with proofs of the spec's
claims about it.

Modelling conventions:
* a pandas DataFrame is a `Table`: a list of raw column names plus a list of
  rows; a cell is `Cell` (`na` models NaN/NaT);
* categorical cells (City, PaymentMethod, Status, MerchantName) are modelled
  as `Option String` (missing or a string value), matching CSV input;
* `Amount` is modelled over `ℚ` (pandas floats, NaN as `Cell.na`);
* external parsing routines (`pd.to_datetime` on strings/numbers,
  `pd.to_numeric` on strings, time-of-day parsing) are oracle parameters
  bundled in `Parsers`; the pipeline is proved for every oracle;
* pandas semantics used: `errors="coerce"` turns unparseable cells into
  missing values; `Series.min`/`max` skip NaN and return NaT/NaN on empty
  input; `NaT.date()` returns NaT; comparisons against NaN/NaT are False;
  `groupby` sorts group keys and drops missing keys; `astype(str)` renders
  NaT as the string "NaT".
-/

namespace UPI

/-- Calendar date (the payload of a parsed `TransactionDate` cell). -/
structure Date where
  year : Nat
  month : Nat
  day : Nat
deriving DecidableEq, Repr

/-- Lexicographic comparison on dates, as a boolean (used by range masks
and by `Series.min`/`max`). -/
def dateLe (a b : Date) : Bool :=
  Nat.blt a.year b.year ||
    (a.year == b.year &&
      (Nat.blt a.month b.month ||
        (a.month == b.month && Nat.ble a.day b.day)))

/-- A cell of the table: missing (NaN/NaT), a string, a number, or a
parsed date. -/
inductive Cell where
  | na
  | str (s : String)
  | num (q : ℚ)
  | date (d : Date)
deriving DecidableEq, Repr

/-- View a cell as a date (`.dt.date` access on a datetime column):
only parsed-date cells yield a date, everything else is missing. -/
def cellDate : Cell → Option Date
  | .date d => some d
  | _ => none

/-- View a cell as a number: only numeric cells yield a value,
everything else is missing (NaN comparisons are False in pandas). -/
def cellNum : Cell → Option ℚ
  | .num q => some q
  | _ => none

/-- One record of the transaction table.  The first seven fields come from
the input file; `yearMonth`, `txTimeParsed`, `hour` and `dateOnly` are the
derived columns the normalizer writes (`YearMonth`, `TransactionTime_parsed`,
`Hour`, `DateOnly`). -/
structure Row where
  txDate : Cell
  txTime : Cell
  amount : Cell
  city : Option String
  pm : Option String
  status : Option String
  merchant : Option String
  yearMonth : Option String
  txTimeParsed : Option Nat
  hour : Option Nat
  dateOnly : Option Date
deriving DecidableEq, Repr

/-- A row with every field missing (convenient base for concrete tables). -/
def emptyRow : Row :=
  { txDate := .na, txTime := .na, amount := .na, city := none, pm := none,
    status := none, merchant := none, yearMonth := none, txTimeParsed := none,
    hour := none, dateOnly := none }

/-- The transaction table: raw column names (as in the loaded file) and the
records.  Presence of an optional column is membership of its (trimmed) name
in `colNames`. -/
structure Table where
  colNames : List String
  rows : List Row
deriving DecidableEq, Repr

/-! ### Column-name trimming (`df.columns.str.strip()`) -/

/-- Whitespace recognised by `str.strip`. -/
def isWS (c : Char) : Bool :=
  c == ' ' || c == '\t' || c == '\n' || c == '\r'

/-- Strip leading and trailing whitespace characters. -/
def stripChars (l : List Char) : List Char :=
  List.rdropWhile isWS (l.dropWhile isWS)

/-- `str.strip` on a column name. -/
def stripName (s : String) : String :=
  String.mk (stripChars s.data)

/-! ### Python string ordering (used by `sorted` and by `groupby` keys) -/

/-- Python compares characters by code point. -/
def charLt (a b : Char) : Bool :=
  Nat.blt a.toNat b.toNat

/-- Lexicographic comparison of character lists by code point, exactly the
order Python's `sorted` uses on strings. -/
def strLeChars : List Char → List Char → Bool
  | [], _ => true
  | _ :: _, [] => false
  | a :: as, b :: bs =>
    if charLt a b then true
    else if charLt b a then false
    else strLeChars as bs

/-- The string order of Python's `sorted`. -/
def strLe (s t : String) : Prop :=
  strLeChars s.data t.data = true

instance : DecidableRel strLe := fun a b =>
  inferInstanceAs (Decidable (strLeChars a.data b.data = true))

instance : IsTotal String strLe := by
  constructor
  intro a b
  show strLeChars a.data b.data = true ∨ strLeChars b.data a.data = true
  generalize a.data = as
  generalize b.data = bs
  induction as generalizing bs with
  | nil => exact Or.inl rfl
  | cons x xs ih =>
    cases bs with
    | nil => exact Or.inr rfl
    | cons y ys =>
      by_cases h1 : charLt x y = true
      · left
        simp [strLeChars, h1]
      · by_cases h2 : charLt y x = true
        · right
          simp [strLeChars, h2]
        · rcases ih ys with h | h
          · left
            simpa [strLeChars, h1, h2] using h
          · right
            simpa [strLeChars, h1, h2] using h

instance : IsTrans String strLe := by
  constructor
  have key : ∀ as bs cs : List Char, strLeChars as bs = true →
      strLeChars bs cs = true → strLeChars as cs = true := by
    intro as
    induction as with
    | nil => intro bs cs _ _; rfl
    | cons x xs ih =>
      intro bs cs h1 h2
      cases bs with
      | nil => simp [strLeChars] at h1
      | cons y ys =>
        cases cs with
        | nil => simp [strLeChars] at h2
        | cons z zs =>
          simp only [strLeChars, charLt, Nat.blt_eq] at h1 h2 ⊢
          split_ifs at h1 h2 ⊢ <;>
            first
              | rfl
              | exact ih ys zs h1 h2
              | omega
  exact fun a b c hab hbc => key a.data b.data c.data hab hbc

/-! ### Oracles for the external parsing library -/

/-- External parsing routines used by the normalizer (`pd.to_datetime`,
`pd.to_numeric`, time parsing).  The pipeline's properties are proved for
every choice of oracle, reflecting that the dashboard treats the parsing
library as a black box that either yields a value or a missing value
(`errors="coerce"`). -/
structure Parsers where
  dateOfString : String → Option Date
  dateOfNum : ℚ → Option Date
  numOfString : String → Option ℚ
  timeOfCell : Cell → Option Nat
  hourOfCell : Cell → Option Nat

/-- `pd.to_datetime(..., errors="coerce")` on a cell: an already-parsed
date is returned unchanged, strings and numbers go through the parsing
oracle, missing stays missing. -/
def toDatetime (ps : String → Option Date) (pn : ℚ → Option Date) : Cell → Option Date
  | .date d => some d
  | .str s => ps s
  | .num q => pn q
  | .na => none

/-- `pd.to_numeric(..., errors="coerce")` on a cell: numbers are returned
unchanged, strings go through the oracle, anything else coerces to
missing. -/
def toNumeric (pn : String → Option ℚ) : Cell → Option ℚ
  | .num q => some q
  | .str s => pn s
  | _ => none

/-- Store an optional date back into a cell (`NaT` for missing). -/
def cellOfDateOpt : Option Date → Cell
  | some d => .date d
  | none => .na

/-- Store an optional number back into a cell (`NaN` for missing). -/
def cellOfNumOpt : Option ℚ → Cell
  | some q => .num q
  | none => .na

/-- The `YearMonth` label of a parsed date
(`dt.to_period("M").astype(str)`); a missing date renders as the literal
string `"NaT"`, exactly as `astype(str)` does. -/
def ymLabel : Option Date → String
  | some d => toString d.year ++ "-" ++ (if d.month < 10 then "0" else "") ++ toString d.month
  | none => "NaT"

/-! ### Normalizer (`app.py` lines 95-115) -/

/-- Add a column name if it is not already present (assigning to a pandas
column creates it once; re-assignment keeps the column list unchanged). -/
def addCol (cols : List String) (n : String) : List String :=
  if n ∈ cols then cols else cols ++ [n]

/-- Column names after normalization: the trimmed names plus the derived
columns actually created (`YearMonth` always; `DateOnly` only when
`TransactionDate` exists; `TransactionTime_parsed` only when
`TransactionTime` exists; `Hour` always). -/
def normCols (cols : List String) (hasDate hasTime : Bool) : List String :=
  let c1 := if hasDate then addCol (addCol cols "YearMonth") "DateOnly"
            else addCol cols "YearMonth"
  if hasTime then addCol (addCol c1 "TransactionTime_parsed") "Hour"
  else addCol c1 "Hour"

/-- Per-row normalization, given which optional source columns exist:
parse `TransactionDate` (deriving `YearMonth` and `DateOnly`), parse
`TransactionTime` (deriving `TransactionTime_parsed` and `Hour`), coerce
`Amount` to numeric.  When `TransactionDate` is absent the code still sets
`YearMonth` to missing; when `TransactionTime` is absent it sets `Hour` to
missing. -/
def normRow (P : Parsers) (hasDate hasTime hasAmt : Bool) (r : Row) : Row :=
  let r1 :=
    if hasDate then
      let pd := toDatetime P.dateOfString P.dateOfNum r.txDate
      { r with txDate := cellOfDateOpt pd, yearMonth := some (ymLabel pd),
               dateOnly := pd }
    else { r with yearMonth := none }
  let r2 :=
    if hasTime then
      { r1 with txTimeParsed := P.timeOfCell r1.txTime,
                hour := P.hourOfCell r1.txTime }
    else { r1 with hour := none }
  if hasAmt then
    { r2 with amount := cellOfNumOpt (toNumeric P.numOfString r2.amount) }
  else r2

/-- The Normalizer (`app.py` lines 95-115): trim column names, then
presence-gated parsing of `TransactionDate`, `TransactionTime` and
`Amount`, adding the derived columns. -/
def normalize (P : Parsers) (t : Table) : Table :=
  { colNames :=
      normCols (t.colNames.map stripName)
        (decide ("TransactionDate" ∈ t.colNames.map stripName))
        (decide ("TransactionTime" ∈ t.colNames.map stripName)),
    rows :=
      t.rows.map (normRow P
        (decide ("TransactionDate" ∈ t.colNames.map stripName))
        (decide ("TransactionTime" ∈ t.colNames.map stripName))
        (decide ("Amount" ∈ t.colNames.map stripName))) }

/-! ### Filter-option derivation (`app.py` lines 129-148) -/

/-- Fuel-driven worker for `firstDedup` (structural recursion so that the
kernel can evaluate it on concrete tables). -/
def firstDedupAux : Nat → List String → List String
  | 0, _ => []
  | _ + 1, [] => []
  | n + 1, x :: xs => x :: firstDedupAux n (xs.filter (fun y => y ≠ x))

/-- `Series.unique()` after `dropna()`: distinct values in order of first
appearance. -/
def firstDedup (l : List String) : List String :=
  firstDedupAux l.length l

/-- City options: `sorted(df["City"].dropna().unique().tolist())`. -/
def cityOptions (t : Table) : List String :=
  List.insertionSort strLe (firstDedup (t.rows.filterMap (fun r => r.city)))

/-- Payment-method options: `sorted(pms)` with
`pms = df["PaymentMethod"].dropna().unique().tolist()`. -/
def pmOptions (t : Table) : List String :=
  List.insertionSort strLe (firstDedup (t.rows.filterMap (fun r => r.pm)))

/-- Status options: `statuses = df["Status"].dropna().unique().tolist()`
passed to the widget as-is, with no sorting (`app.py` lines 145-146). -/
def statusOptions (t : Table) : List String :=
  firstDedup (t.rows.filterMap (fun r => r.status))

/-- Modelled from the spec: "each categorical filter's available choices are
the sorted set of distinct non-missing values present in the normalized
table".  Used to compare the spec's wording with the code's option lists. -/
def specSortedOptions (vals : List String) : List String :=
  List.insertionSort strLe (firstDedup vals)

/-! ### Sidebar default bounds (`app.py` lines 122-127 and 151-156) -/

/-- `Series.min` over the non-missing dates (skipna); `none` is NaT
(empty series or all missing). -/
def minDateList : List Date → Option Date
  | [] => none
  | d :: ds => some (ds.foldl (fun a b => if dateLe a b then a else b) d)

/-- `Series.max` over the non-missing dates (skipna). -/
def maxDateList : List Date → Option Date
  | [] => none
  | d :: ds => some (ds.foldl (fun a b => if dateLe b a then a else b) d)

/-- `Timestamp.date()` with pandas NaT semantics: `NaT.date()` returns NaT
(a missing value), it does not raise. -/
def natDate : Option Date → Option Date
  | some d => some d
  | none => none

/-- The default date-range endpoints `min_d`, `max_d` (`app.py` 122-127):
only computed when `TransactionDate` exists; each endpoint is missing (NaT)
when the column is empty or all-missing. -/
def dateBoundsDefault (t : Table) : Option (Option Date × Option Date) :=
  if "TransactionDate" ∈ t.colNames then
    some (natDate (minDateList (t.rows.filterMap (fun r => cellDate r.txDate))),
          natDate (maxDateList (t.rows.filterMap (fun r => cellDate r.txDate))))
  else none

/-- `Series.min` over the non-missing amounts (skipna); `none` is NaN. -/
def minQList : List ℚ → Option ℚ
  | [] => none
  | q :: qs => some (qs.foldl (fun a b => if a ≤ b then a else b) q)

/-- `Series.max` over the non-missing amounts (skipna). -/
def maxQList : List ℚ → Option ℚ
  | [] => none
  | q :: qs => some (qs.foldl (fun a b => if b ≤ a then a else b) q)

/-- `float(x)`: the identity on numbers; `float(nan)` is NaN (missing),
it does not raise. -/
def floatOf : Option ℚ → Option ℚ
  | some q => some q
  | none => none

/-- The amount-slider bounds `a_min`, `a_max` (`app.py` 151-156): only
computed when `Amount` exists; each bound is missing (NaN) when the column
is empty or all-missing. -/
def amountBoundsDefault (t : Table) : Option (Option ℚ × Option ℚ) :=
  if "Amount" ∈ t.colNames then
    some (floatOf (minQList (t.rows.filterMap (fun r => cellNum r.amount))),
          floatOf (maxQList (t.rows.filterMap (fun r => cellNum r.amount))))
  else none

/-! ### Filter engine (`app.py` lines 159-169) -/

/-- Date-range mask: the row's date must lie in the inclusive range; a
missing date compares False against both bounds, so the row is dropped. -/
def dateMask (lo hi : Date) (r : Row) : Bool :=
  match cellDate r.txDate with
  | some d => dateLe lo d && dateLe d hi
  | none => false

/-- The date-range filter stage: active only when a range was supplied,
the `TransactionDate` column exists, and the range has exactly two
endpoints (`if date_range and "TransactionDate" in df_f.columns and
len(date_range) == 2`). -/
def filterDateRows (cols : List String) (dr : Option (List Date)) (rows : List Row) : List Row :=
  match dr with
  | some [lo, hi] =>
      if "TransactionDate" ∈ cols then rows.filter (dateMask lo hi) else rows
  | _ => rows

/-- The City filter stage: `if selected_cities:` — an empty selection is
falsy, so the stage is skipped; otherwise keep rows whose city is in the
selection (`isin`; a missing city is never in the selection). -/
def filterCityRows (sel : List String) (rows : List Row) : List Row :=
  if sel.isEmpty then rows
  else rows.filter (fun r => match r.city with
    | some c => sel.contains c
    | none => false)

/-- The PaymentMethod filter stage (same shape as the City stage). -/
def filterPmRows (sel : List String) (rows : List Row) : List Row :=
  if sel.isEmpty then rows
  else rows.filter (fun r => match r.pm with
    | some c => sel.contains c
    | none => false)

/-- The Status filter stage (same shape as the City stage). -/
def filterStatusRows (sel : List String) (rows : List Row) : List Row :=
  if sel.isEmpty then rows
  else rows.filter (fun r => match r.status with
    | some c => sel.contains c
    | none => false)

/-- Amount-range mask: inclusive on both ends; a missing amount compares
False, so the row is dropped. -/
def amountMask (lo hi : ℚ) (r : Row) : Bool :=
  match cellNum r.amount with
  | some q => decide (lo ≤ q) && decide (q ≤ hi)
  | none => false

/-- The amount-range filter stage: active when a range was supplied and the
`Amount` column exists (`if selected_amount is not None and "Amount" in
df_f.columns`). -/
def filterAmountRows (cols : List String) (ar : Option (ℚ × ℚ)) (rows : List Row) : List Row :=
  match ar with
  | some (lo, hi) =>
      if "Amount" ∈ cols then rows.filter (amountMask lo hi) else rows
  | none => rows

/-- The whole filter engine (`app.py` 159-169): a copy of the normalized
table narrowed by the five presence- and selection-gated stages in source
order. -/
def applyFilters (t : Table) (dr : Option (List Date))
    (selC selP selS : List String) (ar : Option (ℚ × ℚ)) : Table :=
  { colNames := t.colNames,
    rows :=
      filterAmountRows t.colNames ar
        (filterStatusRows selS
          (filterPmRows selP
            (filterCityRows selC
              (filterDateRows t.colNames dr t.rows)))) }

/-! ### Aggregator (`app.py` lines 198-200 and 239-240) -/

/-- The contribution of one row to an `Amount` sum: a missing amount is
skipped (contributes nothing), exactly as pandas `sum` does. -/
def amtVal (r : Row) : ℚ :=
  (cellNum r.amount).getD 0

/-- Sum of `Amount` over the rows of one `YearMonth` group (pandas group
sums skip NaN and give 0 for an all-missing group). -/
def ymGroupSum (k : String) (rows : List Row) : ℚ :=
  ((rows.filter (fun r => r.yearMonth = some k)).map amtVal).sum

/-- The distinct `YearMonth` keys in ascending label order.  `groupby`
drops rows whose key is missing and sorts the keys; the subsequent
`sort_values("YearMonth")` keeps them ascending. -/
def trendKeys (rows : List Row) : List String :=
  List.insertionSort strLe (firstDedup (rows.filterMap (fun r => r.yearMonth)))

/-- The monthly trend (`app.py` line 200):
`df_f.groupby("YearMonth", as_index=False)["Amount"].sum().sort_values("YearMonth")`. -/
def trend (rows : List Row) : List (String × ℚ) :=
  (trendKeys rows).map (fun k => (k, ymGroupSum k rows))

/-- Sum of `Amount` over the rows of one merchant's group. -/
def merchSum (k : String) (rows : List Row) : ℚ :=
  ((rows.filter (fun r => r.merchant = some k)).map amtVal).sum

/-- The per-merchant totals, keys sorted as `groupby` produces them
(missing merchants dropped). -/
def merchGroups (rows : List Row) : List (String × ℚ) :=
  (List.insertionSort strLe (firstDedup (rows.filterMap (fun r => r.merchant)))).map
    (fun k => (k, merchSum k rows))

/-- Descending order on summed amounts (`sort_values("Amount",
ascending=False)`). -/
def descAmt (a b : String × ℚ) : Prop := b.2 ≤ a.2

instance : DecidableRel descAmt := fun a b => inferInstanceAs (Decidable (b.2 ≤ a.2))

instance : IsTotal (String × ℚ) descAmt :=
  ⟨fun a b => le_total b.2 a.2⟩

instance : IsTrans (String × ℚ) descAmt :=
  ⟨fun _ _ _ hab hbc => le_trans hbc hab⟩

/-- Top merchants (`app.py` line 240): group by `MerchantName`, sum
`Amount`, sort descending by the sum, keep the first 10. -/
def topMerch (rows : List Row) : List (String × ℚ) :=
  (List.insertionSort descAmt (merchGroups rows)).take 10

/-! ### Loader (`app.py` lines 52-78) -/

/-- Raw bytes of a data file (content is opaque to the loader). -/
abbrev FileContent := String

/-- An uploaded-file handle: a filename carrying an extension, plus
content.  `seek(0)` restores the read position, so both parse attempts see
the same content. -/
structure UploadedFile where
  name : String
  content : FileContent

/-- The engines `pd.read_csv` accepts; any other engine raises
`ValueError("Unknown engine: ...")` before any data is read. -/
def validCsvEngines : List String := ["c", "python", "pyarrow", "python-fwf"]

/-- `pd.read_csv(path, engine=...)` reading from a filesystem: validates
the engine, then reads and parses the file (a missing file raises
`FileNotFoundError`, a parse failure raises whatever the parser raises). -/
def pdReadCsvPath (engine : Option String) (fs : String → Option FileContent)
    (parse : FileContent → Except String Table) (path : String) : Except String Table :=
  match engine with
  | some e =>
      if e ∈ validCsvEngines then
        match fs path with
        | some c => parse c
        | none => .error "FileNotFoundError"
      else .error ("Unknown engine: " ++ e)
  | none =>
      match fs path with
      | some c => parse c
      | none => .error "FileNotFoundError"

/-- `load_from_path` (`app.py` 52-58): `pd.read_csv(path,
engine="openpyxl")` inside `try/except`, returning `None` on any
exception.  The result is `Except.ok` of an optional table: an `.error`
would mean an exception escaped the function. -/
def load_from_path (fs : String → Option FileContent)
    (parse : FileContent → Except String Table)
    (path : String) : Except String (Option Table) :=
  match pdReadCsvPath (some "openpyxl") fs parse path with
  | .ok df => .ok (some df)
  | .error _ => .ok none

/-- ASCII lowercasing of one character (`str.lower` on filenames). -/
def lowerChar (c : Char) : Char :=
  if 65 ≤ c.toNat ∧ c.toNat ≤ 90 then Char.ofNat (c.toNat + 32) else c

/-- `name.lower()` on a filename. -/
def lowerStr (s : String) : String :=
  String.mk (s.data.map lowerChar)

/-- `str.endswith(suffix)`. -/
def endsWithStr (s suffix : String) : Bool :=
  decide (s.data.reverse.take suffix.data.length = suffix.data.reverse)

/-- The first parse attempt of `load_from_file`: parser selected by the
lowercased filename's extension (`.xlsx`/`.xls` → spreadsheet parser,
anything else → delimited-text parser). -/
def firstAttempt (readExcel readCsv : FileContent → Except String Table)
    (f : UploadedFile) : Except String Table :=
  if endsWithStr (lowerStr f.name) ".xlsx" || endsWithStr (lowerStr f.name) ".xls" then
    readExcel f.content
  else readCsv f.content

/-- `load_from_file` (`app.py` 60-78): pick the parser by extension, on
failure reset the read position (`seek(0)`) and retry as delimited text, on
a second failure show a diagnostic and return `None`.  The result is
`Except.ok` of (optional table, optional diagnostic message): an `.error`
would mean an exception escaped the function. -/
def load_from_file (readExcel readCsv : FileContent → Except String Table)
    (uf : Option UploadedFile) : Except String (Option Table × Option String) :=
  match uf with
  | none => .ok (none, none)
  | some f =>
      match firstAttempt readExcel readCsv f with
      | .ok df => .ok (some df, none)
      | .error _ =>
          match readCsv f.content with
          | .ok df => .ok (some df, none)
          | .error e => .ok (none, some ("Could not read uploaded file: " ++ e))

/-! ### Concrete data used by witnesses and counterexamples -/

/-- Parsing oracles that fail on everything (unparseable cells coerce to
missing). -/
def failParsers : Parsers :=
  ⟨fun _ => none, fun _ => none, fun _ => none, fun _ => none, fun _ => none⟩

/-- A table whose date and amount cells are all missing. -/
def tAllMissing : Table :=
  ⟨["TransactionDate", "Amount"], [emptyRow]⟩

/-- A raw table whose Status column holds "Success" before "Failed". -/
def tStatus : Table :=
  ⟨["Status"], [{ emptyRow with status := some "Success" },
                { emptyRow with status := some "Failed" }]⟩

/-- A raw table with an Amount column but no TransactionDate column. -/
def tNoDate : Table :=
  ⟨["Amount"], [{ emptyRow with amount := .num 100 }]⟩

/-- The filtered rows of the normalized `tNoDate` with no active filter. -/
def c6rows : List Row :=
  (applyFilters (normalize failParsers tNoDate) none [] [] [] none).rows

/-- A row carrying a YearMonth label and an amount. -/
def rowYM : Row :=
  { emptyRow with yearMonth := some "2024-01", amount := .num 100 }

/-- A row with a merchant and an amount. -/
def rowMerch : Row :=
  { emptyRow with merchant := some "Amazon", amount := .num 5 }

/-- A row with city, payment method and status values. -/
def rowCat : Row :=
  { emptyRow with city := some "Pune", pm := some "UPI", status := some "Done" }

/-- An uploaded spreadsheet file handle. -/
def ufSheet : UploadedFile :=
  ⟨"data.xlsx", "payload"⟩

/-! ### Helper lemmas: column-name trimming -/

theorem stripChars_idem (l : List Char) : stripChars (stripChars l) = stripChars l := by
  unfold stripChars
  have h1 : (List.rdropWhile isWS (l.dropWhile isWS)).dropWhile isWS
      = List.rdropWhile isWS (l.dropWhile isWS) := by
    rcases hrd : List.rdropWhile isWS (l.dropWhile isWS) with _ | ⟨c, t⟩
    · rfl
    · have hpre := List.rdropWhile_prefix isWS (l.dropWhile isWS)
      rw [hrd] at hpre
      rcases hpre with ⟨s, hs⟩
      have hlen : 0 < (l.dropWhile isWS).length := by
        rw [← hs]; simp
      have hhead := List.dropWhile_get_zero_not isWS l hlen
      have hc : (l.dropWhile isWS).get ⟨0, hlen⟩ = c := by
        simp [← hs]
      rw [hc] at hhead
      rw [List.dropWhile_cons]
      simp [hhead]
  rw [h1, List.rdropWhile_idempotent]

theorem stripName_idem (s : String) : stripName (stripName s) = stripName s := by
  show String.mk (stripChars (stripChars s.data)) = String.mk (stripChars s.data)
  exact congrArg String.mk (stripChars_idem s.data)

/-! ### Helper lemmas: first-appearance deduplication -/

theorem firstDedupAux_sublist : ∀ (n : Nat) (l : List String), List.Sublist (firstDedupAux n l) l
  | 0, _ => List.nil_sublist _
  | _ + 1, [] => List.nil_sublist _
  | n + 1, x :: xs =>
      List.Sublist.cons₂ x
        ((firstDedupAux_sublist n (xs.filter (fun y => y ≠ x))).trans
          (List.filter_sublist _))

theorem firstDedup_sublist (l : List String) : List.Sublist (firstDedup l) l :=
  firstDedupAux_sublist l.length l

theorem mem_firstDedupAux : ∀ (n : Nat) (l : List String), l.length ≤ n →
    ∀ a : String, a ∈ firstDedupAux n l ↔ a ∈ l
  | 0, l, h, a => by
      rw [Nat.le_zero] at h
      rw [List.length_eq_zero] at h
      subst h
      simp [firstDedupAux]
  | n + 1, [], _, a => by simp [firstDedupAux]
  | n + 1, x :: xs, h, a => by
      have hlen : (xs.filter (fun y => y ≠ x)).length ≤ n :=
        le_trans (List.length_filter_le _ _) (Nat.succ_le_succ_iff.mp (by simpa using h))
      by_cases hax : a = x
      · subst hax
        simp [firstDedupAux]
      · simp only [firstDedupAux, List.mem_cons, hax, false_or]
        rw [mem_firstDedupAux n _ hlen a]
        simp [List.mem_filter, hax]

theorem mem_firstDedup (l : List String) (a : String) : a ∈ firstDedup l ↔ a ∈ l :=
  mem_firstDedupAux l.length l le_rfl a

theorem nodup_firstDedupAux : ∀ (n : Nat) (l : List String), l.length ≤ n →
    (firstDedupAux n l).Nodup
  | 0, _, _ => by simp [firstDedupAux]
  | n + 1, [], _ => by simp [firstDedupAux]
  | n + 1, x :: xs, h => by
      have hlen : (xs.filter (fun y => y ≠ x)).length ≤ n :=
        le_trans (List.length_filter_le _ _) (Nat.succ_le_succ_iff.mp (by simpa using h))
      refine List.nodup_cons.mpr ⟨?_, nodup_firstDedupAux n _ hlen⟩
      intro hx
      rw [mem_firstDedupAux n _ hlen x] at hx
      have := (List.mem_filter.mp hx).2
      simp at this

theorem nodup_firstDedup (l : List String) : (firstDedup l).Nodup :=
  nodup_firstDedupAux l.length l le_rfl

/-! ### Helper lemmas: column bookkeeping of the normalizer -/

theorem mem_addCol {x n : String} {l : List String} :
    x ∈ addCol l n ↔ x ∈ l ∨ x = n := by
  unfold addCol
  split
  · rename_i h
    constructor
    · exact Or.inl
    · rintro (h1 | rfl)
      · exact h1
      · exact h
  · simp

theorem addCol_eq_of_mem {n : String} {l : List String} (h : n ∈ l) :
    addCol l n = l :=
  if_pos h

theorem mem_normCols_source {x : String} {cols : List String} {hd ht : Bool}
    (hx1 : x ≠ "YearMonth") (hx2 : x ≠ "DateOnly")
    (hx3 : x ≠ "TransactionTime_parsed") (hx4 : x ≠ "Hour") :
    x ∈ normCols cols hd ht ↔ x ∈ cols := by
  unfold normCols
  cases hd <;> cases ht <;> simp [mem_addCol, hx1, hx2, hx3, hx4]

theorem yearMonth_mem_normCols {cols : List String} {hd ht : Bool} :
    "YearMonth" ∈ normCols cols hd ht := by
  unfold normCols
  cases hd <;> cases ht <;> simp [mem_addCol]

theorem hour_mem_normCols {cols : List String} {hd ht : Bool} :
    "Hour" ∈ normCols cols hd ht := by
  unfold normCols
  cases hd <;> cases ht <;> simp [mem_addCol]

theorem dateOnly_mem_normCols {cols : List String} {ht : Bool} :
    "DateOnly" ∈ normCols cols true ht := by
  unfold normCols
  cases ht <;> simp [mem_addCol]

theorem ttParsed_mem_normCols {cols : List String} {hd : Bool} :
    "TransactionTime_parsed" ∈ normCols cols hd true := by
  unfold normCols
  cases hd <;> simp [mem_addCol]

theorem normCols_stripFixed {cols : List String} {hd ht : Bool}
    (h : ∀ s ∈ cols, stripName s = s) :
    ∀ s ∈ normCols cols hd ht, stripName s = s := by
  intro s hs
  have hcases : s ∈ cols ∨ s = "YearMonth" ∨ s = "DateOnly" ∨
      s = "TransactionTime_parsed" ∨ s = "Hour" := by
    cases hd <;> cases ht <;> simp [normCols, mem_addCol] at hs <;> tauto
  rcases hcases with h1 | rfl | rfl | rfl | rfl
  · exact h s h1
  all_goals decide

theorem normCols_absorb {cols : List String} {hd ht : Bool}
    (h1 : "YearMonth" ∈ cols) (h2 : "Hour" ∈ cols)
    (h3 : hd = true → "DateOnly" ∈ cols)
    (h4 : ht = true → "TransactionTime_parsed" ∈ cols) :
    normCols cols hd ht = cols := by
  cases hd <;> cases ht
  · show addCol (addCol cols "YearMonth") "Hour" = cols
    rw [addCol_eq_of_mem h1, addCol_eq_of_mem h2]
  · show addCol (addCol (addCol cols "YearMonth") "TransactionTime_parsed") "Hour" = cols
    rw [addCol_eq_of_mem h1, addCol_eq_of_mem (h4 rfl), addCol_eq_of_mem h2]
  · show addCol (addCol (addCol cols "YearMonth") "DateOnly") "Hour" = cols
    rw [addCol_eq_of_mem h1, addCol_eq_of_mem (h3 rfl), addCol_eq_of_mem h2]
  · show addCol (addCol (addCol (addCol cols "YearMonth") "DateOnly")
        "TransactionTime_parsed") "Hour" = cols
    rw [addCol_eq_of_mem h1, addCol_eq_of_mem (h3 rfl),
        addCol_eq_of_mem (h4 rfl), addCol_eq_of_mem h2]

theorem map_stripName_fixed {l : List String}
    (h : ∀ s ∈ l, stripName s = s) : l.map stripName = l := by
  induction l with
  | nil => rfl
  | cons x xs ih =>
    simp only [List.map_cons, h x (by simp)]
    rw [ih (fun s hs => h s (List.mem_cons_of_mem _ hs))]

/-! ### Helper lemmas: row normalization -/

theorem toDatetime_cellOfDateOpt (ps : String → Option Date)
    (pn : ℚ → Option Date) (x : Option Date) :
    toDatetime ps pn (cellOfDateOpt x) = x := by
  cases x <;> rfl

theorem toNumeric_cellOfNumOpt (pn : String → Option ℚ) (x : Option ℚ) :
    toNumeric pn (cellOfNumOpt x) = x := by
  cases x <;> rfl

theorem normRow_idem (P : Parsers) (hd ht ha : Bool) (r : Row) :
    normRow P hd ht ha (normRow P hd ht ha r) = normRow P hd ht ha r := by
  cases hd <;> cases ht <;> cases ha <;>
    simp [normRow, toDatetime_cellOfDateOpt, toNumeric_cellOfNumOpt]

theorem yearMonth_normRow_hasDate (P : Parsers) (ht ha : Bool) (r : Row) :
    (normRow P true ht ha r).yearMonth
      = some (ymLabel (toDatetime P.dateOfString P.dateOfNum r.txDate)) := by
  cases ht <;> cases ha <;> simp [normRow]

/-- Core of the idempotence claim: running the normalizer twice is the same
as running it once. -/
theorem normalize_idem (P : Parsers) (t : Table) :
    normalize P (normalize P t) = normalize P t := by
  have hfix : ∀ s ∈ t.colNames.map stripName, stripName s = s := by
    intro s hs
    rcases List.mem_map.mp hs with ⟨u, _, rfl⟩
    exact stripName_idem u
  have hfix1 : ∀ s ∈ normCols (t.colNames.map stripName)
      (decide ("TransactionDate" ∈ t.colNames.map stripName))
      (decide ("TransactionTime" ∈ t.colNames.map stripName)),
      stripName s = s := normCols_stripFixed hfix
  have hmapfix := map_stripName_fixed hfix1
  have hiffD := @mem_normCols_source "TransactionDate" (t.colNames.map stripName)
    (decide ("TransactionDate" ∈ t.colNames.map stripName))
    (decide ("TransactionTime" ∈ t.colNames.map stripName))
    (by decide) (by decide) (by decide) (by decide)
  have hiffT := @mem_normCols_source "TransactionTime" (t.colNames.map stripName)
    (decide ("TransactionDate" ∈ t.colNames.map stripName))
    (decide ("TransactionTime" ∈ t.colNames.map stripName))
    (by decide) (by decide) (by decide) (by decide)
  have hiffA := @mem_normCols_source "Amount" (t.colNames.map stripName)
    (decide ("TransactionDate" ∈ t.colNames.map stripName))
    (decide ("TransactionTime" ∈ t.colNames.map stripName))
    (by decide) (by decide) (by decide) (by decide)
  show Table.mk _ _ = Table.mk _ _
  simp only [normalize, hmapfix, decide_eq_decide.mpr hiffD,
    decide_eq_decide.mpr hiffT, decide_eq_decide.mpr hiffA]
  congr 1
  · exact normCols_absorb yearMonth_mem_normCols hour_mem_normCols
      (fun h => by rw [show (decide ("TransactionDate" ∈ t.colNames.map stripName)) = true from h]
                   exact dateOnly_mem_normCols)
      (fun h => by rw [show (decide ("TransactionTime" ∈ t.colNames.map stripName)) = true from h]
                   exact ttParsed_mem_normCols)
  · rw [List.map_map]
    exact List.map_congr_left (fun r _ => normRow_idem P _ _ _ r)

/-! ### Helper lemmas: filter stages -/

theorem filterDateRows_sublist (cols : List String) (dr : Option (List Date))
    (rows : List Row) : List.Sublist (filterDateRows cols dr rows) rows := by
  unfold filterDateRows
  split
  · split
    · exact List.filter_sublist _
    · exact List.Sublist.refl _
  · exact List.Sublist.refl _

theorem filterCityRows_sublist (sel : List String) (rows : List Row) :
    List.Sublist (filterCityRows sel rows) rows := by
  unfold filterCityRows
  split
  · exact List.Sublist.refl _
  · exact List.filter_sublist _

theorem filterPmRows_sublist (sel : List String) (rows : List Row) :
    List.Sublist (filterPmRows sel rows) rows := by
  unfold filterPmRows
  split
  · exact List.Sublist.refl _
  · exact List.filter_sublist _

theorem filterStatusRows_sublist (sel : List String) (rows : List Row) :
    List.Sublist (filterStatusRows sel rows) rows := by
  unfold filterStatusRows
  split
  · exact List.Sublist.refl _
  · exact List.filter_sublist _

theorem filterAmountRows_sublist (cols : List String) (ar : Option (ℚ × ℚ))
    (rows : List Row) : List.Sublist (filterAmountRows cols ar rows) rows := by
  unfold filterAmountRows
  split
  · split
    · exact List.filter_sublist _
    · exact List.Sublist.refl _
  · exact List.Sublist.refl _

theorem applyFilters_rows_sublist (t : Table) (dr : Option (List Date))
    (selC selP selS : List String) (ar : Option (ℚ × ℚ)) :
    List.Sublist (applyFilters t dr selC selP selS ar).rows t.rows :=
  ((filterAmountRows_sublist _ _ _).trans
    ((filterStatusRows_sublist _ _).trans
      ((filterPmRows_sublist _ _).trans
        ((filterCityRows_sublist _ _).trans
          (filterDateRows_sublist _ _ _)))))

/-! ### Helper lemmas: grouped sums -/

theorem sum_map_add {α : Type} (l : List α) (f g : α → ℚ) :
    (l.map (fun x => f x + g x)).sum = (l.map f).sum + (l.map g).sum := by
  induction l with
  | nil => simp
  | cons x xs ih =>
    simp only [List.map_cons, List.sum_cons, ih]
    ring

theorem sum_map_ite_eq : ∀ (keys : List String), keys.Nodup →
    ∀ a : String, a ∈ keys → ∀ c : ℚ,
      (keys.map (fun k => if a = k then c else 0)).sum = c
  | [], _, a, ha, c => absurd ha (by simp)
  | k :: ks, hnd, a, ha, c => by
      rcases List.nodup_cons.mp hnd with ⟨hk, hnd2⟩
      by_cases hak : a = k
      · subst hak
        simp only [List.map_cons, List.sum_cons, if_pos rfl]
        have hz : (ks.map (fun k2 => if a = k2 then c else 0)).sum = 0 := by
          apply List.sum_eq_zero
          intro x hx
          rcases List.mem_map.mp hx with ⟨k2, hk2, rfl⟩
          rw [if_neg]
          rintro rfl
          exact hk hk2
        rw [hz, add_zero]
        simp
      · have ha2 : a ∈ ks := by
          rcases List.mem_cons.mp ha with h | h
          · exact absurd h hak
          · exact h
        simp only [List.map_cons, List.sum_cons, if_neg hak, zero_add]
        exact sum_map_ite_eq ks hnd2 a ha2 c

theorem ymGroupSum_cons (k : String) (r : Row) (rest : List Row) :
    ymGroupSum k (r :: rest)
      = (if r.yearMonth = some k then amtVal r else 0) + ymGroupSum k rest := by
  by_cases h : r.yearMonth = some k <;>
    simp [ymGroupSum, List.filter_cons, h]

theorem groupSum_partition : ∀ (rows : List Row) (keys : List String),
    keys.Nodup → (∀ r ∈ rows, ∃ k ∈ keys, r.yearMonth = some k) →
    (keys.map (fun k => ymGroupSum k rows)).sum = (rows.map amtVal).sum
  | [], keys, _, _ => by
      have hz : ∀ k : String, ymGroupSum k [] = 0 := fun _ => rfl
      simp [hz]
  | r :: rest, keys, hnd, hcov => by
      have hcons : (keys.map (fun k => ymGroupSum k (r :: rest))).sum
          = (keys.map (fun k =>
              (if r.yearMonth = some k then amtVal r else 0) + ymGroupSum k rest)).sum := by
        congr 1
        exact List.map_congr_left (fun k _ => ymGroupSum_cons k r rest)
      rw [hcons, sum_map_add,
        groupSum_partition rest keys hnd (fun r2 h2 => hcov r2 (List.mem_cons_of_mem _ h2))]
      rcases hcov r (List.mem_cons_self _ _) with ⟨k0, hk0, hyk⟩
      have hswap : (keys.map (fun k => if r.yearMonth = some k then amtVal r else 0)).sum
          = (keys.map (fun k => if k0 = k then amtVal r else 0)).sum := by
        congr 1
        refine List.map_congr_left (fun k _ => ?_)
        rw [hyk]
        simp
      rw [hswap, sum_map_ite_eq keys hnd k0 hk0]
      simp

/-! ### Claim theorems -/

/-- Claim C1 (code defect evidence): the fallback loader never produces a
parsed table.  `load_from_path` passes `engine="openpyxl"` to
`pd.read_csv`; pandas rejects that engine with a `ValueError` before
reading anything, the `except` clause swallows it, and the function
returns the "no data" signal for every filesystem, every parser and every
path — including a readable, well-formed CSV at the fallback path.  (The
claim's other half, that no exception escapes, does hold: the result is
always `.ok`.) -/
theorem c1_load_from_path_always_none
    (fs : String → Option FileContent) (parse : FileContent → Except String Table)
    (path : String) :
    load_from_path fs parse path = .ok none := by
  have h : "openpyxl" ∉ validCsvEngines := by decide
  simp [load_from_path, pdReadCsvPath, h]

/-- Claim C3: for each categorical filter (City, PaymentMethod, Status), an
empty selection keeps all rows — the stage is the identity, never the
empty table. -/
theorem c3_empty_selection_keeps_all (rows : List Row) :
    filterCityRows [] rows = rows ∧ filterPmRows [] rows = rows ∧
      filterStatusRows [] rows = rows :=
  ⟨rfl, rfl, rfl⟩

/-- Claim C5: the filtered table is a sublist of the normalized table's
rows (no row added or mutated), its length is bounded by the normalized
length, and applying one further categorical filter to any row list never
increases the row count. -/
theorem c5_filter_subset_monotone (t : Table) (dr : Option (List Date))
    (selC selP selS : List String) (ar : Option (ℚ × ℚ)) :
    List.Sublist (applyFilters t dr selC selP selS ar).rows t.rows ∧
    (applyFilters t dr selC selP selS ar).rows.length ≤ t.rows.length ∧
    ∀ (sel : List String) (rows : List Row),
      (filterCityRows sel rows).length ≤ rows.length ∧
      (filterPmRows sel rows).length ≤ rows.length ∧
      (filterStatusRows sel rows).length ≤ rows.length :=
  ⟨applyFilters_rows_sublist t dr selC selP selS ar,
   (applyFilters_rows_sublist t dr selC selP selS ar).length_le,
   fun sel rows =>
     ⟨(filterCityRows_sublist sel rows).length_le,
      (filterPmRows_sublist sel rows).length_le,
      (filterStatusRows_sublist sel rows).length_le⟩⟩

/-- Unfolding equation of `load_from_file` on a present upload. -/
theorem load_from_file_some (re rc : FileContent → Except String Table)
    (f : UploadedFile) :
    load_from_file re rc (some f)
      = match firstAttempt re rc f with
        | .ok df => .ok (some df, none)
        | .error _ =>
            match rc f.content with
            | .ok df => .ok (some df, none)
            | .error e => .ok (none, some ("Could not read uploaded file: " ++ e)) :=
  rfl

/-- Unfolding equation of `load_from_path`. -/
theorem load_from_path_eq (fs : String → Option FileContent)
    (parse : FileContent → Except String Table) (path : String) :
    load_from_path fs parse path
      = match pdReadCsvPath (some "openpyxl") fs parse path with
        | .ok df => .ok (some df)
        | .error _ => .ok none :=
  rfl

/-- Claim C7: both loading functions resolve every input to a value — an
uncaught exception (`Except.error`) never escapes, whatever the parsers
do; and when both parse attempts of the upload path fail, the result is
"no data" together with the diagnostic message. -/
theorem c7_loaders_never_raise (re rc : FileContent → Except String Table)
    (uf : Option UploadedFile) (fs : String → Option FileContent)
    (pc : FileContent → Except String Table) (path : String) :
    (∃ v, load_from_file re rc uf = .ok v) ∧
    (∃ w, load_from_path fs pc path = .ok w) ∧
    (∀ (f : UploadedFile) (e1 e2 : String),
      firstAttempt re rc f = .error e1 → rc f.content = .error e2 →
      load_from_file re rc (some f)
        = .ok (none, some ("Could not read uploaded file: " ++ e2))) := by
  refine ⟨?_, ?_, ?_⟩
  · rcases uf with _ | f
    · exact ⟨(none, none), rfl⟩
    · rcases h1 : firstAttempt re rc f with e | df
      · rcases h2 : rc f.content with e2 | df2
        · exact ⟨(none, some ("Could not read uploaded file: " ++ e2)),
            by rw [load_from_file_some, h1, h2]⟩
        · exact ⟨(some df2, none), by rw [load_from_file_some, h1, h2]⟩
      · exact ⟨(some df, none), by rw [load_from_file_some, h1]⟩
  · rcases h : pdReadCsvPath (some "openpyxl") fs pc path with e | df
    · exact ⟨none, by rw [load_from_path_eq, h]⟩
    · exact ⟨some df, by rw [load_from_path_eq, h]⟩
  · intro f e1 e2 h1 h2
    rw [load_from_file_some, h1, h2]

/-- Claim C7 witness: with parsers that fail on everything, the uploaded
spreadsheet resolves to "no data" plus the diagnostic, and nothing
escapes as an error. -/
theorem c7_loaders_never_raise_witness :
    load_from_file (fun _ => .error "boom") (fun _ => .error "boom")
        (some ufSheet)
      = .ok (none, some ("Could not read uploaded file: " ++ "boom")) :=
  (c7_loaders_never_raise (fun _ => .error "boom") (fun _ => .error "boom")
      (some ufSheet) (fun _ => none) (fun _ => .error "x") "p").2.2
    ufSheet "boom" "boom" (by simp [firstAttempt]) rfl

/-- Claim C6 counterexample: the trend-sum property fails for a filtered
table with an Amount column when the source had no TransactionDate column:
`YearMonth` is then entirely missing, `groupby` drops every row, and the
trend sums to 0 while the table's Amount sum is 100. -/
theorem c6_trend_sum_cex :
    ((trend c6rows).map Prod.snd).sum ≠ (c6rows.map amtVal).sum := by
  have h : c6rows = [{ emptyRow with amount := .num 100 }] := by decide
  have ht : trend [{ emptyRow with amount := .num 100 }] = [] := by decide
  rw [h, ht]
  simp [amtVal, cellNum, emptyRow]

/-- Claim C6 as amended: for every filtered row list in which each row
carries a YearMonth label — which holds for every table normalized with a
TransactionDate column present, since unparseable dates get the label
"NaT" — the monthly trend is sorted ascending by month label and the sum
of its values equals the sum of Amount over the whole row list with
missing amounts excluded.  (When the TransactionDate column is absent,
YearMonth is entirely missing and the trend is empty.) -/
theorem c6_trend_amended :
    (∀ rows : List Row, (∀ r ∈ rows, r.yearMonth.isSome = true) →
      List.Sorted strLe ((trend rows).map Prod.fst) ∧
      ((trend rows).map Prod.snd).sum = (rows.map amtVal).sum) ∧
    (∀ (P : Parsers) (t : Table), "TransactionDate" ∈ t.colNames.map stripName →
      ∀ r ∈ (normalize P t).rows, r.yearMonth.isSome = true) := by
  constructor
  · intro rows hall
    constructor
    · have hfst : (trend rows).map Prod.fst = trendKeys rows := by
        have hcomp : (Prod.fst ∘ fun k => (k, ymGroupSum k rows)) = id := by
          funext k; rfl
        rw [trend, List.map_map, hcomp, List.map_id]
      rw [hfst]
      exact List.sorted_insertionSort strLe _
    · have hsnd : (trend rows).map Prod.snd
          = (trendKeys rows).map (fun k => ymGroupSum k rows) := by
        have hcomp : (Prod.snd ∘ fun k => (k, ymGroupSum k rows))
            = fun k => ymGroupSum k rows := by
          funext k; rfl
        rw [trend, List.map_map, hcomp]
      rw [hsnd]
      apply groupSum_partition
      · exact (List.perm_insertionSort strLe _).nodup_iff.mpr (nodup_firstDedup _)
      · intro r hr
        rcases Option.isSome_iff_exists.mp (hall r hr) with ⟨k, hk⟩
        refine ⟨k, ?_, hk⟩
        rw [trendKeys, (List.perm_insertionSort strLe _).mem_iff, mem_firstDedup]
        exact List.mem_filterMap.mpr ⟨r, hr, hk⟩
  · intro P t hcol r hr
    simp only [normalize] at hr
    rcases List.mem_map.mp hr with ⟨r0, _, rfl⟩
    rw [decide_eq_true hcol, yearMonth_normRow_hasDate]
    rfl

/-- Claim C6 witness: the amended statement instantiated at a single
labelled row. -/
theorem c6_trend_amended_witness :
    List.Sorted strLe ((trend [rowYM]).map Prod.fst) ∧
    ((trend [rowYM]).map Prod.snd).sum = ([rowYM].map amtVal).sum :=
  c6_trend_amended.1 [rowYM] (by decide)

/-- Claim C9: the normalizer is idempotent — normalizing an
already-normalized table changes nothing (for every choice of parsing
oracles), and in particular trimming already-trimmed column names is the
identity. -/
theorem c9_normalize_idempotent (P : Parsers) (t : Table) :
    normalize P (normalize P t) = normalize P t ∧
    ∀ s : String, stripName (stripName s) = stripName s :=
  ⟨normalize_idem P t, stripName_idem⟩

/-- Claim C10: an active range filter excludes rows whose ranged value is
missing — the date-range stage drops every row with a missing
TransactionDate, and the amount-range stage drops every row with a missing
Amount, whatever the supplied bounds are. -/
theorem c10_range_filters_drop_missing (cols : List String) (lo hi : Date)
    (qlo qhi : ℚ) (rows : List Row) (r : Row) :
    ("TransactionDate" ∈ cols → cellDate r.txDate = none →
      r ∉ filterDateRows cols (some [lo, hi]) rows) ∧
    ("Amount" ∈ cols → cellNum r.amount = none →
      r ∉ filterAmountRows cols (some (qlo, qhi)) rows) := by
  constructor
  · intro hcol hna hmem
    simp only [filterDateRows, if_pos hcol] at hmem
    have hmask := (List.mem_filter.mp hmem).2
    simp [dateMask, hna] at hmask
  · intro hcol hna hmem
    simp only [filterAmountRows, if_pos hcol] at hmem
    have hmask := (List.mem_filter.mp hmem).2
    simp [amountMask, hna] at hmask

/-- Claim C2 counterexample: the Status options the code offers are NOT
the sorted distinct values — for a normalized table whose Status column
holds "Success" before "Failed", the code offers them in first-appearance
order, while the spec's sorted set puts "Failed" first. -/
theorem c2_status_options_not_sorted_cex :
    statusOptions (normalize failParsers tStatus)
      ≠ specSortedOptions
          ((normalize failParsers tStatus).rows.filterMap (fun r => r.status)) := by
  decide

/-- Claim C2 as amended: the City and PaymentMethod option lists are the
sorted distinct non-missing values of their columns in the normalized
pre-filter table; the Status option list holds the same distinct
non-missing values but in first-appearance order (a sublist of the value
sequence), not sorted.  All three are functions of the normalized table
alone, so no filter narrows another filter's options. -/
theorem c2_options_amended (t : Table) :
    (List.Sorted strLe (cityOptions t) ∧ (cityOptions t).Nodup ∧
      ∀ c, c ∈ cityOptions t ↔ ∃ r ∈ t.rows, r.city = some c) ∧
    (List.Sorted strLe (pmOptions t) ∧ (pmOptions t).Nodup ∧
      ∀ c, c ∈ pmOptions t ↔ ∃ r ∈ t.rows, r.pm = some c) ∧
    ((statusOptions t).Nodup ∧
      List.Sublist (statusOptions t) (t.rows.filterMap (fun r => r.status)) ∧
      ∀ c, c ∈ statusOptions t ↔ ∃ r ∈ t.rows, r.status = some c) := by
  refine ⟨⟨?_, ?_, ?_⟩, ⟨?_, ?_, ?_⟩, ?_, ?_, ?_⟩
  · exact List.sorted_insertionSort strLe _
  · exact (List.perm_insertionSort strLe _).nodup_iff.mpr (nodup_firstDedup _)
  · intro c
    rw [cityOptions, (List.perm_insertionSort strLe _).mem_iff, mem_firstDedup,
      List.mem_filterMap]
  · exact List.sorted_insertionSort strLe _
  · exact (List.perm_insertionSort strLe _).nodup_iff.mpr (nodup_firstDedup _)
  · intro c
    rw [pmOptions, (List.perm_insertionSort strLe _).mem_iff, mem_firstDedup,
      List.mem_filterMap]
  · exact nodup_firstDedup _
  · exact firstDedup_sublist _
  · intro c
    rw [statusOptions, mem_firstDedup, List.mem_filterMap]

/-- Claim C2 witness: the amended statement instantiated at a concrete
normalized table with one categorical row. -/
theorem c2_options_amended_witness :
    "Pune" ∈ cityOptions ⟨["City"], [rowCat]⟩
      ↔ ∃ r ∈ [rowCat], r.city = some "Pune" :=
  ((c2_options_amended ⟨["City"], [rowCat]⟩).1.2.2) "Pune"

/-- Claim C4: the degenerate inputs the claim enumerates do not raise:
when the TransactionDate column exists but the table is empty or all its
dates are missing, the default date-range endpoints are NaT (missing), not
an error (`Series.min` returns NaT and `NaT.date()` returns NaT); when the
Amount column exists but the table is empty or all its amounts are
missing, the slider bounds are NaN (missing), not an error
(`float(nan)` is NaN).  Every coercion failure is a missing value. -/
theorem c4_degenerate_bounds_missing (t : Table) :
    ("TransactionDate" ∈ t.colNames →
      (∀ r ∈ t.rows, cellDate r.txDate = none) →
      dateBoundsDefault t = some (none, none)) ∧
    ("Amount" ∈ t.colNames →
      (∀ r ∈ t.rows, cellNum r.amount = none) →
      amountBoundsDefault t = some (none, none)) := by
  constructor
  · intro hc hall
    have h0 : t.rows.filterMap (fun r => cellDate r.txDate) = [] :=
      List.filterMap_eq_nil_iff.mpr hall
    simp [dateBoundsDefault, hc, h0, minDateList, maxDateList, natDate]
  · intro hc hall
    have h0 : t.rows.filterMap (fun r => cellNum r.amount) = [] :=
      List.filterMap_eq_nil_iff.mpr hall
    simp [amountBoundsDefault, hc, h0, minQList, maxQList, floatOf]

/-- Claim C4 witness: on the concrete table whose date and amount cells
are all missing, both default ranges are the missing pair, not a
failure. -/
theorem c4_degenerate_bounds_missing_witness :
    dateBoundsDefault tAllMissing = some (none, none) ∧
    amountBoundsDefault tAllMissing = some (none, none) :=
  ⟨(c4_degenerate_bounds_missing tAllMissing).1 (by decide) (by decide),
   (c4_degenerate_bounds_missing tAllMissing).2 (by decide) (by decide)⟩

/-- Claim C8: the top-merchants table (group by MerchantName, sum Amount,
sort descending, take 10) has at most 10 rows, its summed amounts are in
non-increasing order from first to last, and every row carries exactly its
merchant's summed amount. -/
theorem c8_top_merchants (rows : List Row) :
    (topMerch rows).length ≤ 10 ∧
    List.Sorted descAmt (topMerch rows) ∧
    ∀ p ∈ topMerch rows, p.2 = merchSum p.1 rows := by
  refine ⟨?_, ?_, ?_⟩
  · exact List.length_take_le _ _
  · exact (List.sorted_insertionSort descAmt _).sublist (List.take_sublist _ _)
  · intro p hp
    have h1 : p ∈ List.insertionSort descAmt (merchGroups rows) :=
      (List.take_sublist _ _).subset hp
    have h2 : p ∈ merchGroups rows :=
      (List.perm_insertionSort descAmt _).mem_iff.mp h1
    rcases List.mem_map.mp h2 with ⟨k, _, rfl⟩
    rfl

/-- Claim C8 witness: instantiated at a one-merchant table. -/
theorem c8_top_merchants_witness :
    (topMerch [rowMerch]).length ≤ 10 ∧
    ("Amazon", merchSum "Amazon" [rowMerch]).2 = merchSum "Amazon" [rowMerch] :=
  ⟨(c8_top_merchants [rowMerch]).1,
   (c8_top_merchants [rowMerch]).2.2 ("Amazon", merchSum "Amazon" [rowMerch])
     (List.mem_singleton.mpr rfl)⟩

/-- Claim C10 witness: the all-missing row is dropped by an active date
filter and by an active amount filter even though the ranges are wide. -/
theorem c10_range_filters_drop_missing_witness :
    emptyRow ∉ filterDateRows ["TransactionDate", "Amount"]
        (some [⟨2024, 1, 1⟩, ⟨2024, 12, 31⟩]) [emptyRow] ∧
    emptyRow ∉ filterAmountRows ["TransactionDate", "Amount"]
        (some (0, 1000)) [emptyRow] :=
  ⟨(c10_range_filters_drop_missing ["TransactionDate", "Amount"]
      ⟨2024, 1, 1⟩ ⟨2024, 12, 31⟩ 0 1000 [emptyRow] emptyRow).1
      (by decide) (by decide),
   (c10_range_filters_drop_missing ["TransactionDate", "Amount"]
      ⟨2024, 1, 1⟩ ⟨2024, 12, 31⟩ 0 1000 [emptyRow] emptyRow).2
      (by decide) (by decide)⟩

end UPI
